import Mathlib

/-!
Verification of the `ntruth-tools` icon-generation scripts
(`scripts/gen_icons_from_tools.py` and `scripts/gen_tray_icons.py`).

The scripts are shallowly embedded here:
* images (`PImage`) carry their integer dimensions and a pixel function;
* Python float arithmetic in `_contain_rgba` is modelled exactly over `ℚ`,
  with Python's `round` (half-to-even) as `pyRound` and Python's floor
  division `//` as `Int.fdiv`;
* the Pillow library operations that the scripts call (Lanczos resampling,
  mask blending, PNG/ICO byte encoding) are external to the repository, so
  their pixel/byte outputs are abstracted into a `PilOps` parameter; their
  dimension behaviour (a resize returns exactly the requested dimensions,
  `Image.new` builds a transparent canvas of the requested size, `paste`
  writes only inside the pasted region) is modelled concretely;
* each script's `main` becomes a function from "does the source file exist"
  and the decoded source image to the list of file writes performed plus an
  optional fatal error.
-/

namespace NtruthTools

/-- An RGBA pixel, one integer per 8-bit channel. -/
structure Pixel where
  r : ℤ
  g : ℤ
  b : ℤ
  a : ℤ
  deriving DecidableEq

instance : Inhabited Pixel := ⟨⟨0, 0, 0, 0⟩⟩

/-- A raster image: integer dimensions and a pixel function.
The embedding fixes the RGBA mode, so `img.convert("RGBA")` preserves the
dimensions and pixel content (it allocates a copy, which matters only for
the heap-level embedding below). -/
structure PImage where
  width : ℤ
  height : ℤ
  pix : ℤ → ℤ → Pixel

instance : Inhabited PImage := ⟨⟨0, 0, fun _ _ => default⟩⟩

/-- The Pillow operations the scripts call whose outputs are opaque bytes or
resampled pixel values.  They are external library code, so the development
is parameterised over them: every theorem holds for an arbitrary resampler,
blender and encoder. -/
structure PilOps where
  /-- pixel values of `img.resize((w, h), resample=LANCZOS)` -/
  lanczosPix : PImage → ℤ → ℤ → ℤ → ℤ → Pixel
  /-- `canvas.paste(resized, (ox, oy), resized)` blends a source pixel over a
  canvas pixel, governed by the source's alpha mask -/
  blend : Pixel → Pixel → Pixel
  /-- bytes of `img.save(..., format="ICO", sizes=...)` -/
  icoEncode : PImage → List ℤ → List ℕ
  /-- bytes of `img.save(..., format="PNG", optimize=True)` -/
  pngEncode : PImage → List ℕ

/-- Python's built-in `round`: nearest integer, ties to the even integer. -/
def pyRound (q : ℚ) : ℤ :=
  if q - ⌊q⌋ < 1/2 then ⌊q⌋
  else if (1 : ℚ)/2 < q - ⌊q⌋ then ⌊q⌋ + 1
  else if 2 ∣ ⌊q⌋ then ⌊q⌋ else ⌊q⌋ + 1

/-- `scale = min(size / src_w, size / src_h)`
(gen_icons_from_tools.py line 15; Python float division modelled exactly
over `ℚ`). -/
def scaleQ (w h size : ℤ) : ℚ :=
  min ((size : ℚ) / (w : ℚ)) ((size : ℚ) / (h : ℚ))

/-- `dst_w = max(1, int(round(src_w * scale)))` (line 16). -/
def dst_w (w h size : ℤ) : ℤ :=
  max 1 (pyRound ((w : ℚ) * scaleQ w h size))

/-- `dst_h = max(1, int(round(src_h * scale)))` (line 17). -/
def dst_h (w h size : ℤ) : ℤ :=
  max 1 (pyRound ((h : ℚ) * scaleQ w h size))

/-- `ox = (size - dst_w) // 2` (line 21; Python `//` is floor division). -/
def ox (w h size : ℤ) : ℤ :=
  (size - dst_w w h size).fdiv 2

/-- `oy = (size - dst_h) // 2` (line 22). -/
def oy (w h size : ℤ) : ℤ :=
  (size - dst_h w h size).fdiv 2

/-- `Image.new("RGBA", (size, size), (0, 0, 0, 0))` (line 20): a fully
transparent canvas. -/
def newRGBA (w h : ℤ) : PImage :=
  ⟨w, h, fun _ _ => ⟨0, 0, 0, 0⟩⟩

/-- `canvas.paste(resized, (px, py), resized)` (line 23): inside the pasted
region the source pixel is mask-blended over the canvas pixel; everywhere
else the canvas is untouched.  (Pillow silently clips the region to the
canvas bounds; pixels outside the canvas dimensions are never observed.) -/
def pasteMask (ops : PilOps) (canvas src : PImage) (px py : ℤ) : PImage :=
  { canvas with
    pix := fun x y =>
      if px ≤ x ∧ x < px + src.width ∧ py ≤ y ∧ y < py + src.height then
        ops.blend (src.pix (x - px) (y - py)) (canvas.pix x y)
      else canvas.pix x y }

/-- `_contain_rgba(img, size)` (gen_icons_from_tools.py lines 8–24).
`img.convert("RGBA")` preserves dimensions and content in this embedding.
The explicit `raise ValueError("Invalid source image size")` fires on a zero
dimension; additionally `Image.new` (Pillow, external) raises
`ValueError("Width and height must be >= 0")` when `size` is negative — the
resize before it cannot fail since `dst_w, dst_h ≥ 1`.  No other path
raises: in particular `size == 0` is NOT rejected. -/
def containRgba (ops : PilOps) (img : PImage) (size : ℤ) : Except String PImage :=
  if img.width = 0 ∨ img.height = 0 then
    .error "Invalid source image size"
  else
    let dw := dst_w img.width img.height size
    let dh := dst_h img.width img.height size
    let resized : PImage := ⟨dw, dh, ops.lanczosPix img dw dh⟩
    if size < 0 then .error "Width and height must be >= 0"
    else
      .ok (pasteMask ops (newRGBA size size)
            resized (ox img.width img.height size) (oy img.width img.height size))

/-- `True` exactly on `Except.error`. -/
def isErr {ε α : Type} : Except ε α → Bool
  | .error _ => true
  | .ok _ => false

/-- A concrete trivial instantiation of the abstract Pillow operations, used
to evaluate the embedding on concrete inputs. -/
def trivOps : PilOps :=
  { lanczosPix := fun _ _ _ _ _ => default
    blend := fun p _ => p
    icoEncode := fun _ _ => []
    pngEncode := fun _ => [] }

/-- A concrete 512×512 opaque source image. -/
def exSrc : PImage := ⟨512, 512, fun _ _ => ⟨0, 0, 0, 255⟩⟩

/-- A concrete 1×1 source image. -/
def onePx : PImage := ⟨1, 1, fun _ _ => ⟨0, 0, 0, 255⟩⟩

/-! ### Script-level embedding -/

/-- `ico_sizes = [16, 24, 32, 48, 64, 128, 256]`
(gen_icons_from_tools.py line 50). -/
def icoSizes : List ℤ := [16, 24, 32, 48, 64, 128, 256]

/-- One `_contain_rgba(base, s)` call per requested size, left to right; the
first raised error aborts the run. -/
def containAll (ops : PilOps) (base : PImage) : List ℤ → Except String (List PImage)
  | [] => .ok []
  | s :: rest =>
    match containRgba ops base s with
    | .error e => .error e
    | .ok img =>
      match containAll ops base rest with
      | .error e => .error e
      | .ok others => .ok (img :: others)

/-- `ico_imgs = [_contain_rgba(base, s) for s in ico_sizes]` (line 51). -/
def icoImgsOf (ops : PilOps) (base : PImage) : Except String (List PImage) :=
  containAll ops base icoSizes

/-- `ico_imgs[0].save(out_ico, format="ICO", sizes=[(s, s) for s in ico_sizes])`
(lines 53–57): the only image handed to the ICO writer is `ico_imgs[0]`; the
bytes written are whatever the (external, abstracted) encoder produces from
that image and the size list. -/
def emitIco (ops : PilOps) (ico_imgs : List PImage) : List ℕ :=
  ops.icoEncode ico_imgs.headI icoSizes

/-- The frame dimensions of the ICO file Pillow writes.  Modelled from the
spec: Pillow's ICO encoder is library code outside this repository; per its
documented behaviour it iterates over the *sorted, deduplicated* requested
sizes and silently ignores every size larger than the image being saved (or
larger than 256), producing one frame per surviving size.  Sizes here are a
single integer per frame since the script always requests squares. -/
def icoFrameSizes (base_w base_h : ℤ) (sizes : List ℤ) : List ℤ :=
  (sizes.dedup.insertionSort (· ≤ ·)).filter
    (fun s => decide (s ≤ base_w) && decide (s ≤ base_h) && decide (s ≤ 256))

/-- The source path both scripts read:
`e:\Code\ntruth-tools\src-tauri\icons\tools.png`. -/
def toolsPngPath : String := "e:\\Code\\ntruth-tools\\src-tauri\\icons\\tools.png"

/-- `main()` of gen_icons_from_tools.py (lines 27–57), as a function from
"does the source file exist" and the decoded source image to the list of
(path, bytes) writes performed, plus the fatal error if the run aborted.
A missing source raises `SystemExit` with a message before anything is
written; otherwise `icon.png` (the 512 px contain-resize) is written first
and then `icon.ico`. -/
def genIconsMain (ops : PilOps) (srcExists : Bool) (base : PImage) :
    List (String × List ℕ) × Option String :=
  if ¬ srcExists then ([], some ("Missing source icon: " ++ toolsPngPath))
  else
    match containRgba ops base 512 with
    | .error e => ([], some e)
    | .ok png512 =>
      let writes1 := [("icon.png", ops.pngEncode png512)]
      match icoImgsOf ops base with
      | .error e => (writes1, some e)
      | .ok ico_imgs => (writes1 ++ [("icon.ico", emitIco ops ico_imgs)], none)

/-- `main()` of gen_tray_icons.py (lines 6–20).  There is no existence check:
`Image.open` itself raises `FileNotFoundError` when the source is missing,
which propagates and aborts the run before either output is written.  The
two outputs are direct (non-letterboxed) 16×16 and 32×32 Lanczos resizes. -/
def genTrayMain (ops : PilOps) (srcExists : Bool) (base : PImage) :
    List (String × List ℕ) × Option String :=
  if ¬ srcExists then ([], some ("FileNotFoundError: " ++ toolsPngPath))
  else
    let img16 : PImage := ⟨16, 16, ops.lanczosPix base 16 16⟩
    let img32 : PImage := ⟨32, 32, ops.lanczosPix base 32 32⟩
    ([("tools-16.png", ops.pngEncode img16), ("tools-32.png", ops.pngEncode img32)], none)

/-! ### Heap-level embedding of `_contain_rgba`

Python images are heap objects; `_contain_rgba` receives a reference to the
caller's image.  To state that it never mutates its argument, the same
algorithm is embedded once more with an explicit heap: `convert`, `resize`
and `Image.new` allocate fresh objects, and `paste` writes in place — but
only to the freshly allocated canvas. -/

/-- A heap of images: an allocation counter and the object store.
Addresses `≥ next` are free. -/
structure Heap where
  next : ℕ
  mem : ℕ → PImage

/-- Allocate a fresh image at the next free address. -/
def Heap.alloc (h : Heap) (img : PImage) : Heap × ℕ :=
  (⟨h.next + 1, fun a => if a = h.next then img else h.mem a⟩, h.next)

/-- Overwrite the image stored at address `a` (in-place mutation). -/
def Heap.write (h : Heap) (a : ℕ) (img : PImage) : Heap :=
  ⟨h.next, fun b => if b = a then img else h.mem b⟩

/-- `_contain_rgba` over the explicit heap.  `img.convert("RGBA")` returns a
fresh copy (line 10), `img.resize(...)` a fresh image (line 19),
`Image.new(...)` a fresh canvas (line 20); `canvas.paste(...)` (line 23)
mutates the canvas — and nothing else — in place.  Returns the heap after
the call together with the result (the canvas address) or the raised error. -/
def containRgbaSt (ops : PilOps) (h : Heap) (src : ℕ) (size : ℤ) :
    Heap × Except String ℕ :=
  let al1 := h.alloc (h.mem src)
  let h1 := al1.1
  let img := h1.mem al1.2
  if img.width = 0 ∨ img.height = 0 then (h1, .error "Invalid source image size")
  else
    let dw := dst_w img.width img.height size
    let dh := dst_h img.width img.height size
    let al2 := h1.alloc ⟨dw, dh, ops.lanczosPix img dw dh⟩
    let h2 := al2.1
    if size < 0 then (h2, .error "Width and height must be >= 0")
    else
      let al3 := h2.alloc (newRGBA size size)
      let h3 := al3.1
      let h4 := h3.write al3.2
        (pasteMask ops (h3.mem al3.2) (h3.mem al2.2)
          (ox img.width img.height size) (oy img.width img.height size))
      (h4, .ok al3.2)

/-- An example heap holding one image (at address 0). -/
def exHeap : Heap := ⟨1, fun _ => exSrc⟩

/-! ### Helper lemmas about `pyRound` and the destination geometry -/

theorem pyRound_intCast (n : ℤ) : pyRound (n : ℚ) = n := by
  simp [pyRound, Int.floor_intCast]

theorem pyRound_le {q : ℚ} {n : ℤ} (h : q ≤ (n : ℚ)) : pyRound q ≤ n := by
  have hfl : ⌊q⌋ ≤ n := by
    have := Int.floor_mono h
    simpa using this
  have hq : (⌊q⌋ : ℚ) ≤ q := Int.floor_le q
  unfold pyRound
  split_ifs with h1 h2 h3
  · exact hfl
  · -- here 1/2 < q - ⌊q⌋, so ⌊q⌋ < q ≤ n, hence ⌊q⌋ < n
    have hlt : (⌊q⌋ : ℚ) < q := by linarith
    have : (⌊q⌋ : ℚ) < (n : ℚ) := lt_of_lt_of_le hlt h
    have : ⌊q⌋ < n := by exact_mod_cast this
    omega
  · exact hfl
  · have hhalf : (1 : ℚ)/2 ≤ q - ⌊q⌋ := not_lt.mp h1
    have hlt : (⌊q⌋ : ℚ) < q := by linarith
    have : (⌊q⌋ : ℚ) < (n : ℚ) := lt_of_lt_of_le hlt h
    have : ⌊q⌋ < n := by exact_mod_cast this
    omega

theorem mul_scaleQ_le_left {w h size : ℤ} (hw : 1 ≤ w) :
    (w : ℚ) * scaleQ w h size ≤ (size : ℚ) := by
  have hw' : (0 : ℚ) < (w : ℚ) := by exact_mod_cast hw
  have h1 : scaleQ w h size ≤ (size : ℚ) / (w : ℚ) := min_le_left _ _
  calc (w : ℚ) * scaleQ w h size ≤ (w : ℚ) * ((size : ℚ) / (w : ℚ)) :=
        mul_le_mul_of_nonneg_left h1 hw'.le
    _ = (size : ℚ) := by field_simp

theorem mul_scaleQ_le_right {w h size : ℤ} (hh : 1 ≤ h) :
    (h : ℚ) * scaleQ w h size ≤ (size : ℚ) := by
  have hh' : (0 : ℚ) < (h : ℚ) := by exact_mod_cast hh
  have h1 : scaleQ w h size ≤ (size : ℚ) / (h : ℚ) := min_le_right _ _
  calc (h : ℚ) * scaleQ w h size ≤ (h : ℚ) * ((size : ℚ) / (h : ℚ)) :=
        mul_le_mul_of_nonneg_left h1 hh'.le
    _ = (size : ℚ) := by field_simp

theorem dst_w_le {w h size : ℤ} (hw : 1 ≤ w) (hs : 1 ≤ size) :
    dst_w w h size ≤ size :=
  max_le hs (pyRound_le (mul_scaleQ_le_left hw))

theorem dst_h_le {w h size : ℤ} (hh : 1 ≤ h) (hs : 1 ≤ size) :
    dst_h w h size ≤ size :=
  max_le hs (pyRound_le (mul_scaleQ_le_right hh))

theorem one_le_dst_w (w h size : ℤ) : 1 ≤ dst_w w h size := le_max_left _ _

theorem one_le_dst_h (w h size : ℤ) : 1 ≤ dst_h w h size := le_max_left _ _

/-- When `h ≤ w` (and everything is positive) the scale is `size / w`, so the
destination width is exactly `size`. -/
theorem dst_w_eq_size {w h size : ℤ} (hh : 1 ≤ h) (hw : h ≤ w) (hs : 1 ≤ size) :
    dst_w w h size = size := by
  have hw1 : 1 ≤ w := hh.trans hw
  have hw' : (0 : ℚ) < (w : ℚ) := by exact_mod_cast hw1
  have hh' : (0 : ℚ) < (h : ℚ) := by exact_mod_cast hh
  have hs' : (0 : ℚ) ≤ (size : ℚ) := by positivity
  have hmin : scaleQ w h size = (size : ℚ) / (w : ℚ) := by
    apply min_eq_left
    gcongr
  have harg : (w : ℚ) * scaleQ w h size = (size : ℚ) := by
    rw [hmin]; field_simp
  rw [dst_w, harg, pyRound_intCast]
  omega

/-- Symmetrically, when `w ≤ h` the destination height is exactly `size`. -/
theorem dst_h_eq_size {w h size : ℤ} (hw : 1 ≤ w) (hh : w ≤ h) (hs : 1 ≤ size) :
    dst_h w h size = size := by
  have hh1 : 1 ≤ h := hw.trans hh
  have hh' : (0 : ℚ) < (h : ℚ) := by exact_mod_cast hh1
  have hw' : (0 : ℚ) < (w : ℚ) := by exact_mod_cast hw
  have hs' : (0 : ℚ) ≤ (size : ℚ) := by positivity
  have hmin : scaleQ w h size = (size : ℚ) / (h : ℚ) := by
    apply min_eq_right
    gcongr
  have harg : (h : ℚ) * scaleQ w h size = (size : ℚ) := by
    rw [hmin]; field_simp
  rw [dst_h, harg, pyRound_intCast]
  omega

/-! ### Claims -/

/-- C1: for every source image with `width ≥ 1` and `height ≥ 1` and every
target `size ≥ 1`, `_contain_rgba` succeeds and returns an image whose width
and height both equal `size`, regardless of the source aspect ratio. -/
theorem C1_contain_output_is_size_square (ops : PilOps) (img : PImage) (size : ℤ)
    (hw : 1 ≤ img.width) (hh : 1 ≤ img.height) (hs : 1 ≤ size) :
    ∃ out, containRgba ops img size = .ok out ∧ out.width = size ∧ out.height = size := by
  have h1 : ¬ (img.width = 0 ∨ img.height = 0) := by omega
  have h2 : ¬ size < 0 := by omega
  simp only [containRgba, if_neg h1, if_neg h2]
  exact ⟨_, rfl, rfl, rfl⟩

/-- C1 witness: the 512×512 example source at size 16. -/
theorem C1_witness :
    ∃ out, containRgba trivOps exSrc 16 = .ok out ∧ out.width = 16 ∧ out.height = 16 :=
  C1_contain_output_is_size_square trivOps exSrc 16 (by decide) (by decide) (by decide)

/-- C6: for every square source (`w = h ≥ 1`) and every `size ≥ 1`, the
resized content fills the whole canvas: `dst_w = dst_h = size` and
`ox = oy = 0`. -/
theorem C6_square_source_fills_canvas (w h size : ℤ)
    (hwh : w = h) (hw : 1 ≤ w) (hs : 1 ≤ size) :
    dst_w w h size = size ∧ dst_h w h size = size ∧
    ox w h size = 0 ∧ oy w h size = 0 := by
  subst hwh
  have h1 : dst_w w w size = size := dst_w_eq_size hw le_rfl hs
  have h2 : dst_h w w size = size := dst_h_eq_size hw le_rfl hs
  refine ⟨h1, h2, ?_, ?_⟩
  · rw [ox, h1, sub_self]
    decide
  · rw [oy, h2, sub_self]
    decide

/-- C6 witness: a 3×3 source at size 7. -/
theorem C6_witness :
    dst_w 3 3 7 = 7 ∧ dst_h 3 3 7 = 7 ∧ ox 3 3 7 = 0 ∧ oy 3 3 7 = 0 :=
  C6_square_source_fills_canvas 3 3 7 rfl (by decide) (by decide)

/-- C7: for every valid source (`w, h ≥ 1`) and `size ≥ 1`, the placed
region stays inside the canvas: `ox ≥ 0`, `oy ≥ 0`, `ox + dst_w ≤ size` and
`oy + dst_h ≤ size` — no cropping. -/
theorem C7_placed_region_inside_canvas (w h size : ℤ)
    (hw : 1 ≤ w) (hh : 1 ≤ h) (hs : 1 ≤ size) :
    0 ≤ ox w h size ∧ 0 ≤ oy w h size ∧
    ox w h size + dst_w w h size ≤ size ∧ oy w h size + dst_h w h size ≤ size := by
  have h1 : dst_w w h size ≤ size := dst_w_le hw hs
  have h2 : dst_h w h size ≤ size := dst_h_le hh hs
  have h3 := one_le_dst_w w h size
  have h4 := one_le_dst_h w h size
  have e1 : ox w h size = (size - dst_w w h size) / 2 := by
    rw [ox, Int.fdiv_eq_ediv _ (by norm_num)]
  have e2 : oy w h size = (size - dst_h w h size) / 2 := by
    rw [oy, Int.fdiv_eq_ediv _ (by norm_num)]
  omega

/-- C7 witness: a 100×50 source at size 64. -/
theorem C7_witness :
    0 ≤ ox 100 50 64 ∧ 0 ≤ oy 100 50 64 ∧
    ox 100 50 64 + dst_w 100 50 64 ≤ 64 ∧ oy 100 50 64 + dst_h 100 50 64 ≤ 64 :=
  C7_placed_region_inside_canvas 100 50 64 (by decide) (by decide) (by decide)

/-- C5: for every valid source and size, the code computes exactly
`scale = min(size/w, size/h)`, `dst_w = max(1, round(w*scale))`,
`dst_h = max(1, round(h*scale))`, `ox = (size - dst_w) // 2` and
`oy = (size - dst_h) // 2` with floor division, so the odd remainder (0 or 1)
is the extra pixel of padding on the right/bottom: the content is biased one
pixel toward the top-left. -/
theorem C5_exact_arithmetic (w h size : ℤ) (hw : 1 ≤ w) (hh : 1 ≤ h) (hs : 1 ≤ size) :
    scaleQ w h size = min ((size : ℚ) / (w : ℚ)) ((size : ℚ) / (h : ℚ)) ∧
    dst_w w h size = max 1 (pyRound ((w : ℚ) * scaleQ w h size)) ∧
    dst_h w h size = max 1 (pyRound ((h : ℚ) * scaleQ w h size)) ∧
    ox w h size = (size - dst_w w h size).fdiv 2 ∧
    oy w h size = (size - dst_h w h size).fdiv 2 ∧
    (size - dst_w w h size - 2 * ox w h size = 0 ∨
      size - dst_w w h size - 2 * ox w h size = 1) ∧
    (size - dst_h w h size - 2 * oy w h size = 0 ∨
      size - dst_h w h size - 2 * oy w h size = 1) := by
  refine ⟨rfl, rfl, rfl, rfl, rfl, ?_, ?_⟩
  · have h1 : dst_w w h size ≤ size := dst_w_le hw hs
    have e1 : ox w h size = (size - dst_w w h size) / 2 := by
      rw [ox, Int.fdiv_eq_ediv _ (by norm_num)]
    omega
  · have h2 : dst_h w h size ≤ size := dst_h_le hh hs
    have e2 : oy w h size = (size - dst_h w h size) / 2 := by
      rw [oy, Int.fdiv_eq_ediv _ (by norm_num)]
    omega

/-- C5 witness: the spec's concrete scenario, a 100×50 source at size 64. -/
theorem C5_witness :
    scaleQ 100 50 64 =
      min (((64 : ℤ) : ℚ) / ((100 : ℤ) : ℚ)) (((64 : ℤ) : ℚ) / ((50 : ℤ) : ℚ)) ∧
    dst_w 100 50 64 = max 1 (pyRound (((100 : ℤ) : ℚ) * scaleQ 100 50 64)) ∧
    dst_h 100 50 64 = max 1 (pyRound (((50 : ℤ) : ℚ) * scaleQ 100 50 64)) ∧
    ox 100 50 64 = (64 - dst_w 100 50 64).fdiv 2 ∧
    oy 100 50 64 = (64 - dst_h 100 50 64).fdiv 2 ∧
    (64 - dst_w 100 50 64 - 2 * ox 100 50 64 = 0 ∨
      64 - dst_w 100 50 64 - 2 * ox 100 50 64 = 1) ∧
    (64 - dst_h 100 50 64 - 2 * oy 100 50 64 = 0 ∨
      64 - dst_h 100 50 64 - 2 * oy 100 50 64 = 1) := by
  exact C5_exact_arithmetic 100 50 64 (by decide) (by decide) (by decide)

/-- C3 counterexample: the claim demands strictly positive top/bottom padding
(`oy > 0`) for every landscape source, but a 100×99 source at size 100 scales
to 100×99 content, leaving a single leftover row: `oy = (100 - 99) // 2 = 0`. -/
theorem C3_counterexample :
    (99 : ℤ) < 100 ∧ (1 : ℤ) ≤ 99 ∧ (1 : ℤ) ≤ 100 ∧ ¬ (0 < oy 100 99 100) := by
  refine ⟨by norm_num, by norm_num, by norm_num, ?_⟩
  have hsc : scaleQ 100 99 100 = 1 := by
    unfold scaleQ
    rw [min_eq_left (by norm_num)]
    norm_num
  have harg : ((99 : ℤ) : ℚ) * scaleQ 100 99 100 = ((99 : ℤ) : ℚ) := by
    rw [hsc, mul_one]
  have h1 : dst_h 100 99 100 = 99 := by
    rw [dst_h, harg, pyRound_intCast]
    decide
  rw [oy, h1]
  decide

/-- C3 (amended): for a landscape source (`w > h`) all padding is on the top
and bottom — `ox = 0` and `oy ≥ 0` — but `oy` is strictly positive exactly
when at least two rows of the canvas are left over (`dst_h + 2 ≤ size`);
symmetrically for a portrait source (`h > w`). -/
theorem C3_amended_padding_axis (w h size : ℤ)
    (hw : 1 ≤ w) (hh : 1 ≤ h) (hs : 1 ≤ size) :
    (h < w → ox w h size = 0 ∧ 0 ≤ oy w h size ∧
      (0 < oy w h size ↔ dst_h w h size + 2 ≤ size)) ∧
    (w < h → oy w h size = 0 ∧ 0 ≤ ox w h size ∧
      (0 < ox w h size ↔ dst_w w h size + 2 ≤ size)) := by
  constructor
  · intro hlt
    have h1 : dst_w w h size = size := dst_w_eq_size hh hlt.le hs
    have h2 : dst_h w h size ≤ size := dst_h_le hh hs
    have h3 := one_le_dst_h w h size
    have e1 : ox w h size = (size - dst_w w h size) / 2 := by
      rw [ox, Int.fdiv_eq_ediv _ (by norm_num)]
    have e2 : oy w h size = (size - dst_h w h size) / 2 := by
      rw [oy, Int.fdiv_eq_ediv _ (by norm_num)]
    omega
  · intro hlt
    have h1 : dst_h w h size = size := dst_h_eq_size hw hlt.le hs
    have h2 : dst_w w h size ≤ size := dst_w_le hw hs
    have h3 := one_le_dst_w w h size
    have e1 : ox w h size = (size - dst_w w h size) / 2 := by
      rw [ox, Int.fdiv_eq_ediv _ (by norm_num)]
    have e2 : oy w h size = (size - dst_h w h size) / 2 := by
      rw [oy, Int.fdiv_eq_ediv _ (by norm_num)]
    omega

/-- C3 witness: the 100×50 source at size 64 (landscape branch). -/
theorem C3_witness :
    ((50 : ℤ) < 100 → ox 100 50 64 = 0 ∧ 0 ≤ oy 100 50 64 ∧
      (0 < oy 100 50 64 ↔ dst_h 100 50 64 + 2 ≤ 64)) ∧
    ((100 : ℤ) < 50 → oy 100 50 64 = 0 ∧ 0 ≤ ox 100 50 64 ∧
      (0 < ox 100 50 64 ↔ dst_w 100 50 64 + 2 ≤ 64)) :=
  C3_amended_padding_axis 100 50 64 (by decide) (by decide) (by decide)

/-- C4 counterexample: the claim says `size ≤ 0` raises `InvalidInput`, but
at `size = 0` with a valid 1×1 source the code raises nothing — it returns a
0×0 canvas (`scale = 0`, `dst_w = dst_h = 1`, and neither the script's
zero-dimension check nor Pillow's negative-dimension check fires). -/
theorem C4_counterexample :
    (0 : ℤ) ≤ 0 ∧ 1 ≤ onePx.width ∧ 1 ≤ onePx.height ∧
    isErr (containRgba trivOps onePx 0) = false := by
  refine ⟨le_refl _, by decide, by decide, by decide⟩

/-- C4 (amended): `_contain_rgba` raises if and only if the source has zero
width or zero height, or `size` is strictly negative (the latter raised by
`Image.new`, not by the script's own check); a zero `size` is accepted.  In
particular a 0×100 source raises for every requested size. -/
theorem C4_amended_error_condition (ops : PilOps) (img : PImage) (size : ℤ) :
    isErr (containRgba ops img size) = true ↔
      (img.width = 0 ∨ img.height = 0 ∨ size < 0) := by
  by_cases h1 : img.width = 0 ∨ img.height = 0
  · simp [containRgba, h1, isErr]
    tauto
  · by_cases h2 : size < 0
    · simp [containRgba, h1, h2, isErr]
    · simp [containRgba, h1, h2, isErr]

/-- C2 (code bug): the script saves `ico_imgs[0]` — the 16×16 frame — while
requesting sizes 16…256; Pillow ignores every requested size larger than the
image being saved, so the ICO written for the example 512×512 source records
exactly one 16×16 frame, not the seven frames the claim (and the script's
own comment) promises. -/
theorem C2_ico_written_with_single_frame :
    (icoImgsOf trivOps exSrc).map
        (fun imgs => icoFrameSizes imgs.headI.width imgs.headI.height icoSizes) =
      .ok [16] ∧
    ([16] : List ℤ).length = 1 := by
  exact ⟨rfl, rfl⟩

/-- C8: with the source file absent, each script terminates with a diagnostic
error before anything is written: `gen_icons_from_tools.main` raises
`SystemExit` at its existence check, and `gen_tray_icons.main` propagates the
`FileNotFoundError` from `Image.open`; in both cases the list of writes
performed is empty. -/
theorem C8_missing_source_halts_without_output (ops : PilOps) (base : PImage) :
    genIconsMain ops false base =
      ([], some ("Missing source icon: " ++ toolsPngPath)) ∧
    genTrayMain ops false base =
      ([], some ("FileNotFoundError: " ++ toolsPngPath)) :=
  ⟨rfl, rfl⟩

/-- C9: `_contain_rgba` never mutates the image passed to it: over the
explicit heap, the object at the source address is bit-identical before and
after every invocation — `convert`, `resize` and `Image.new` allocate fresh
addresses and the in-place `paste` hits only the fresh canvas. -/
theorem C9_source_image_not_mutated (ops : PilOps) (heap : Heap) (src : ℕ)
    (size : ℤ) (hsrc : src < heap.next) :
    ((containRgbaSt ops heap src size).1).mem src = heap.mem src := by
  have h0 : ¬ (src = heap.next) := by omega
  have h1 : ¬ (src = heap.next + 1) := by omega
  have h2 : ¬ (src = heap.next + 2) := by omega
  simp only [containRgbaSt, Heap.alloc, Heap.write, newRGBA]
  split_ifs <;> simp [h0, h1, h2]

/-- C9 witness: the example heap with the source at address 0, size 16. -/
theorem C9_witness :
    ((containRgbaSt trivOps exHeap 0 16).1).mem 0 = exHeap.mem 0 :=
  C9_source_image_not_mutated trivOps exHeap 0 16 (by decide)

/-- C10: the bytes written to `icon.ico` depend only on `ico_imgs[0]` and the
requested size list: the save call reads no other element, so any two image
lists with the same first element produce identical ICO bytes; and the first
element of `ico_imgs` is exactly the 16 px contain-resize result. -/
theorem C10_ico_bytes_depend_only_on_first (ops : PilOps) :
    (∀ l1 l2 : List PImage, l1.headI = l2.headI →
      emitIco ops l1 = emitIco ops l2) ∧
    (∀ base imgs img16, icoImgsOf ops base = .ok imgs →
      containRgba ops base 16 = .ok img16 → imgs.headI = img16) := by
  constructor
  · intro l1 l2 hhead
    simp [emitIco, hhead]
  · intro base imgs img16 himgs h16
    rw [icoImgsOf, icoSizes, containAll, h16] at himgs
    cases hrest : containAll ops base [24, 32, 48, 64, 128, 256] with
    | error e =>
      rw [hrest] at himgs
      exact absurd himgs (by simp)
    | ok others =>
      rw [hrest] at himgs
      cases himgs
      rfl

/-- C10 witness: two concrete lists sharing their first element. -/
theorem C10_witness :
    emitIco trivOps [onePx, exSrc] = emitIco trivOps [onePx, onePx] :=
  (C10_ico_bytes_depend_only_on_first trivOps).1 [onePx, exSrc] [onePx, onePx] rfl

end NtruthTools
